import Mathlib

/-!
# gin-swag-test: the HTTP handlers, the route table and the process supervisor of main.go

The program is glue over three libraries: gin (routing, `Context.JSON`,
`Context.BindJSON`), encoding/json with go-playground/validator (what `BindJSON`
runs on the struct tags `json:"..." binding:"required"`), and net/http
(`ListenAndServe`, `Shutdown`). The handlers and `main` are embedded statement by
statement; each library call they make is embedded as a function that follows the
library's documented behaviour, and says so in its doc comment.
-/

set_option linter.dupNamespace false

namespace GinSwag

/-! ## JSON documents and request bodies -/

/-- A JSON document. An object keeps its members in the order of the text, duplicate
keys included, because encoding/json visits them in that order. A number keeps its
literal. -/
inductive JSON where
  | null : JSON
  | bool (b : Bool) : JSON
  | num (literal : String) : JSON
  | str (s : String) : JSON
  | arr (items : List JSON) : JSON
  | obj (members : List (String × JSON)) : JSON

/-- What the JSON decoder finds in the body of a request: either no JSON value at all
(empty body, text that is not JSON) or the first JSON value of the stream. -/
inductive Body where
  | invalid : Body
  | value (v : JSON) : Body

/-- The request as the handlers see it. -/
structure Request where
  method : String
  path : String
  header : List (String × String)
  body : Body

/-! ## The Go values and the gin context -/

/-- The errors `BindJSON` can hand back: from the decoder (no JSON value, or a JSON
value of the wrong type for the target) and from the validator (tag `required`). -/
inductive BindError where
  | malformed : BindError
  | typeMismatch : BindError
  | required : BindError
  deriving DecidableEq, Repr

/-- Go: `type Health struct { Health string }` with tags `json:"health" binding:"required"`. -/
structure Health where
  Health : String
  deriving DecidableEq, Repr

/-- Go: `type Ready struct { Ready string }` with tags `json:"ready" binding:"required"`. -/
structure Ready where
  Ready : String
  deriving DecidableEq, Repr

/-- Go: `http.StatusOK`. -/
def StatusOK : Nat := 200

/-- Go: `http.StatusBadRequest`. -/
def StatusBadRequest : Nat := 400

/-- The gin context of one request: the request and the response writer (its status,
whether the header has gone out, the content type, the documents written to the body
in order), the abort flag and the errors attached to the context. -/
structure Context where
  request : Request
  status : Nat
  written : Bool
  contentType : Option String
  body : List JSON
  aborted : Bool
  errors : List BindError

/-- The state a handler runs in: the context of the request and the process log (the
lines the standard logger has printed, without their timestamp). -/
structure State where
  c : Context
  log : List String

/-- The context gin hands to the handler chain of a new request: the writer is reset
to status 200, nothing written, no error, not aborted. -/
def Context.fresh (req : Request) : Context :=
  { request := req, status := StatusOK, written := false, contentType := none,
    body := [], aborted := false, errors := [] }

/-- gin `Context.Status`: the writer takes the code unless the header has already gone
out. -/
def Context.Status (c : Context) (code : Nat) : Context :=
  if 0 < code ∧ c.status ≠ code then
    (if c.written then c else { c with status := code })
  else c

/-- gin `ResponseWriter.WriteHeaderNow`: the header goes out with the current status. -/
def Context.WriteHeaderNow (c : Context) : Context :=
  { c with written := true }

/-- gin `Context.JSON(code, obj)` for a code that allows a body: sets the status, sets
the content type when none is set, sends the header and writes the document. -/
def Context.JSON (c : Context) (code : Nat) (doc : JSON) : Context :=
  let c1 := c.Status code
  let c2 := { c1 with contentType := some (c1.contentType.getD "application/json; charset=utf-8") }
  let c3 := c2.WriteHeaderNow
  { c3 with body := c3.body ++ [doc] }

/-- gin `Context.AbortWithError(code, err)`: sets the status, sends the header, marks
the context aborted and attaches the error. -/
def Context.AbortWithError (c : Context) (code : Nat) (err : BindError) : Context :=
  let c1 := (c.Status code).WriteHeaderNow
  { c1 with aborted := true, errors := c1.errors ++ [err] }

/-! ## Binding: encoding/json into a one-string struct, then the validator -/

/-- The key comparison of encoding/json for a field whose name has only the letters of
`health` or `ready`: equality up to ASCII case. -/
def foldKey (k : String) : String :=
  String.mk (k.data.map Char.toLower)

/-- The decoder state while it walks the members of an object: the value of the
field so far and the first type error met. -/
structure DecodeState where
  field : String
  err : Option BindError

/-- One object member: a key that matches the field stores a string, leaves the field
alone on null and records a type error on anything else (decoding goes on); a key that
does not match is skipped. -/
def decodeMember (name : String) (st : DecodeState) (m : String × JSON) : DecodeState :=
  if foldKey m.1 = name then
    match m.2 with
    | .str s => { st with field := s }
    | .null => st
    | _ => { st with err := some (st.err.getD .typeMismatch) }
  else st

/-- encoding/json `Decoder.Decode` into a zero struct with one string field called
`name`: null leaves the struct alone, an object is walked member by member, any other
value is a type error. -/
def decodeStruct (name : String) : Body → Except BindError String
  | .invalid => .error .malformed
  | .value .null => .ok ""
  | .value (.obj ms) =>
    let st := ms.foldl (decodeMember name) { field := "", err := none }
    match st.err with
    | some e => .error e
    | none => .ok st.field
  | .value _ => .error .typeMismatch

/-- The validator on the tag `binding:"required"` of a string field: the zero value,
the empty string, is refused. -/
def validateRequired (s : String) : Except BindError String :=
  if s = "" then .error .required else .ok s

/-- gin `binding.JSON.Bind`: decode, then validate. -/
def bindString (name : String) (b : Body) : Except BindError String :=
  match decodeStruct name b with
  | .error e => .error e
  | .ok s => validateRequired s

/-- The binding of a body to `Health`. -/
def bindHealth (b : Body) : Except BindError Health :=
  match bindString "health" b with
  | .error e => .error e
  | .ok s => .ok { Health := s }

/-- The binding of a body to `Ready`. -/
def bindReady (b : Body) : Except BindError Ready :=
  match bindString "ready" b with
  | .error e => .error e
  | .ok s => .ok { Ready := s }

/-- gin `Context.BindJSON` (that is `MustBindWith(obj, binding.JSON)`): on a binding
error the request is aborted with status 400 and the error is returned. -/
def Context.BindJSON {α : Type} (c : Context) (bind : Body → Except BindError α) :
    Context × Except BindError α :=
  match bind c.request.body with
  | .error e => (c.AbortWithError StatusBadRequest e, .error e)
  | .ok d => (c, .ok d)

/-! ## The handlers -/

/-- encoding/json `Marshal` of a `Health`. -/
def marshalHealth (d : Health) : JSON := .obj [("health", .str d.Health)]

/-- encoding/json `Marshal` of a `Ready`. -/
def marshalReady (d : Ready) : JSON := .obj [("ready", .str d.Ready)]

/-- The document of `gin.H{"status": "ok"}`. -/
def statusOk : JSON := .obj [("status", .str "ok")]

/-- Go: `log.Println("Got:", data)` for a struct with one string field: the operands
separated by a blank, the struct printed as its field between braces. -/
def gotLine (field : String) : String := "Got: \x7b" ++ field ++ "\x7d"

/-- Go: `func (ctrl *HealthController) Get(c *gin.Context)`. -/
def HealthController.Get (st : State) : State :=
  let data : Health := { Health := "foo" }
  { st with c := st.c.JSON StatusOK (marshalHealth data) }

/-- Go: `func (ctrl *HealthController) Set(c *gin.Context)`. -/
def HealthController.Set (st : State) : State :=
  match st.c.BindJSON bindHealth with
  | (c1, .error _) => { st with c := c1 }
  | (c1, .ok data) =>
    let log1 := st.log ++ [gotLine data.Health]
    { c := c1.JSON StatusOK statusOk, log := log1 }

/-- Go: `func (ctrl *ReadyController) Get(c *gin.Context)`. -/
def ReadyController.Get (st : State) : State :=
  let data : Ready := { Ready := "bar" }
  { st with c := st.c.JSON StatusOK (marshalReady data) }

/-- Go: `func (ctrl *ReadyController) Set(c *gin.Context)`. -/
def ReadyController.Set (st : State) : State :=
  match st.c.BindJSON bindReady with
  | (c1, .error _) => { st with c := c1 }
  | (c1, .ok data) =>
    let log1 := st.log ++ [gotLine data.Ready]
    { c := c1.JSON StatusOK statusOk, log := log1 }

/-- The state in which gin runs the handler of a request, the process log being `log`. -/
def State.start (req : Request) (log : List String) : State :=
  { c := Context.fresh req, log := log }

/-! ## What a client and an operator observe of a handler run -/

/-- The outcome of a handler run: the status, whether the response header went out,
the content type, the body, whether a line was logged (the log itself), and whether
the request was aborted. -/
structure Outcome where
  status : Nat
  written : Bool
  contentType : Option String
  body : List JSON
  log : List String
  aborted : Bool

/-- The outcome of a state. -/
def State.outcome (st : State) : Outcome :=
  { status := st.c.status, written := st.c.written, contentType := st.c.contentType,
    body := st.c.body, log := st.log, aborted := st.c.aborted }

/-! ## Renaming the key `health` to `ready` -/

/-- The key `health` becomes `ready`; any other key stays, a key in another case
included. -/
def renameKey (k : String) : String :=
  if k = "health" then "ready" else k

/-- The renaming on a document: on the keys of the top-level object. -/
def renameDoc : JSON → JSON
  | .obj ms => .obj (ms.map (fun m => (renameKey m.1, m.2)))
  | v => v

/-- The renaming on a request body. -/
def renameBody : Body → Body
  | .invalid => .invalid
  | .value v => .value (renameDoc v)

/-- The renaming on a request. -/
def renameRequest (req : Request) : Request :=
  { req with body := renameBody req.body }

/-- The renaming on an outcome: on every document of the response body. -/
def renameOutcome (o : Outcome) : Outcome :=
  { o with body := o.body.map renameDoc }

/-! ## The declarative reading of a binding -/

/-- Equality of two character lists up to the case of the ASCII letters, position by
position. -/
def equalFoldChars : List Char → List Char → Bool
  | [], [] => true
  | a :: as, b :: bs => (a.toLower == b.toLower) && equalFoldChars as bs
  | _, _ => false

/-- Equality of two strings up to the case of the ASCII letters. -/
def equalFold (a b : String) : Bool :=
  equalFoldChars a.data b.data

/-- The values of the members whose key is equal to `name` up to the case of the ASCII
letters, in the order of the object. -/
def fieldValues (name : String) (ms : List (String × JSON)) : List JSON :=
  (ms.filter (fun m => equalFold m.1 name)).map (fun m => m.2)

/-- Whether the keys of a body are unambiguous for the renaming: every key equal to
`health` up to case is `health` itself, and no key is equal to `ready` up to case. A
body that is not an object has no keys. -/
def plainKeys : Body → Bool
  | .value (.obj ms) =>
    ms.all (fun m =>
      (!equalFold m.1 "health" || decide (m.1 = "health")) && !equalFold m.1 "ready")
  | _ => true

/-- A string or null. -/
def isStringOrNull : JSON → Bool
  | .str _ => true
  | .null => true
  | _ => false

/-- The last string among the values, `dflt` when there is none. -/
def lastString (dflt : String) : List JSON → String
  | [] => dflt
  | .str s :: rest => lastString s rest
  | _ :: rest => lastString dflt rest

/-! ## Errors, the listener goroutine and the supervisor -/

/-- A Go error value: the two sentinels the program can meet, any other error, and an
error that wraps another. -/
inductive GoError where
  | ErrServerClosed : GoError
  | DeadlineExceeded : GoError
  | other (msg : String) : GoError
  | wrap (msg : String) (inner : GoError) : GoError
  deriving DecidableEq, Repr

/-- Go: `err.Error()`. -/
def GoError.Error : GoError → String
  | .ErrServerClosed => "http: Server closed"
  | .DeadlineExceeded => "context deadline exceeded"
  | .other msg => msg
  | .wrap msg _ => msg

/-- Go: `errors.Is(err, target)`: the error or one it wraps is the target. -/
def errorsIs : GoError → GoError → Bool
  | .wrap msg inner, target => decide (GoError.wrap msg inner = target) || errorsIs inner target
  | err, target => decide (err = target)

/-- What a thread of the process does to the process: the lines it logs and the exit
status when it ends the process. -/
structure Effect where
  log : List String
  exit : Option Nat
  deriving DecidableEq, Repr

/-- Go: the goroutine `go func() { if err := srv.ListenAndServe(); err != nil &&
errors.Is(err, http.ErrServerClosed) { log.Printf("listen error: %s\n", err) } }()`,
given what `ListenAndServe` returns. -/
def listener (result : Option GoError) : Effect :=
  match result with
  | some err =>
    if errorsIs err .ErrServerClosed then
      { log := ["listen error: " ++ err.Error], exit := none }
    else { log := [], exit := none }
  | none => { log := [], exit := none }

/-- The signals `signal.Notify(quit, syscall.SIGINT, syscall.SIGTERM)` relays. -/
inductive Signal where
  | SIGINT : Signal
  | SIGTERM : Signal
  deriving DecidableEq, Repr

/-- Go: `time.Second`, in nanoseconds. -/
def Second : Nat := 1000000000

/-- The steps of the main thread that the outside can see. -/
inductive Event where
  | log (line : String) : Event
  | serve (addr : String) : Event
  | notify (sigs : List Signal) : Event
  | recv (sig : Signal) : Event
  | shutdown (timeout : Nat) : Event
  | cancel : Event
  | exit (code : Nat) : Event
  deriving DecidableEq, Repr

/-- What the main thread meets: the title of the generated docs package, the signal
that arrives on `quit` (none: never), and what `srv.Shutdown` returns. -/
structure Env where
  title : String
  signal : Option Signal
  shutdownResult : Option GoError

/-- Go: `func main()` after the routes are registered: the trace of the main thread.
Without a signal the thread stays blocked on `<-quit`. `log.Fatal` prints and exits
with status 1, the deferred `cancel` does not run then. -/
def main (env : Env) : List Event :=
  let startup : List Event :=
    [ .log ("Serving Swagger UI at /swagger for API " ++ env.title),
      .serve "localhost:8080",
      .notify [.SIGINT, .SIGTERM] ]
  match env.signal with
  | none => startup
  | some sig =>
    let draining : List Event :=
      startup ++ [.recv sig, .log "Shutting down...", .shutdown (5 * Second)]
    match env.shutdownResult with
    | some err => draining ++ [.log ("Server forced to shutdown:" ++ err.Error), .exit 1]
    | none => draining ++ [.log "Exiting...", .cancel, .exit 0]

/-- The exit status of a trace: the code of its exit step, none while the process
runs. -/
def exitStatus (t : List Event) : Option Nat :=
  t.findSome? (fun e => match e with | .exit code => some code | _ => none)

/-! ## The route table -/

/-- The handlers `main` registers. -/
inductive Handler where
  | HealthGet : Handler
  | HealthSet : Handler
  | ReadyGet : Handler
  | ReadySet : Handler
  | Swagger : Handler
  deriving DecidableEq, Repr

/-- The pieces of a path between its slashes. -/
def splitSlash : List Char → List (List Char)
  | [] => [[]]
  | c :: cs =>
    match splitSlash cs with
    | [] => [[]]
    | seg :: rest => if c = '/' then [] :: seg :: rest else (c :: seg) :: rest

/-- Go `path.Clean` on the pieces of a path: empty pieces and `.` go, `..` removes the
piece before it, or goes itself at the root of a rooted path. -/
def cleanSegments (rooted : Bool) (stack : List (List Char)) :
    List (List Char) → List (List Char)
  | [] => stack.reverse
  | seg :: rest =>
    if seg = [] ∨ seg = ['.'] then cleanSegments rooted stack rest
    else if seg = ['.', '.'] then
      match stack with
      | top :: below =>
        if top = ['.', '.'] then cleanSegments rooted (seg :: stack) rest
        else cleanSegments rooted below rest
      | [] =>
        if rooted then cleanSegments rooted [] rest
        else cleanSegments rooted [seg] rest
    else cleanSegments rooted (seg :: stack) rest

/-- Go: `path.Clean`. -/
def pathClean (p : String) : String :=
  let rooted : Bool := p.data.head? = some '/'
  let inner := String.mk (List.intercalate ['/'] (cleanSegments rooted [] (splitSlash p.data)))
  if rooted then "/" ++ inner
  else if inner = "" then "." else inner

/-- Go: `path.Join(a, b)`: the non-empty elements joined by a slash, then cleaned. -/
def pathJoin (a b : String) : String :=
  if a = "" ∧ b = "" then ""
  else if a = "" then pathClean b
  else if b = "" then pathClean a
  else pathClean (a ++ "/" ++ b)

/-- The last character of a string, if any. -/
def lastChar (s : String) : Option Char := s.data.getLast?

/-- gin `joinPaths(absolutePath, relativePath)`. -/
def joinPaths (absolutePath relativePath : String) : String :=
  if relativePath = "" then absolutePath
  else
    let finalPath := pathJoin absolutePath relativePath
    if lastChar relativePath = some '/' ∧ lastChar finalPath ≠ some '/' then finalPath ++ "/"
    else finalPath

/-- A registered route. -/
structure RouteInfo where
  method : String
  path : String
  handler : Handler
  deriving DecidableEq, Repr

/-- gin `RouterGroup`: the base path of the group. -/
structure RouterGroup where
  basePath : String

/-- gin `RouterGroup.Group(relativePath)`. -/
def RouterGroup.Group (g : RouterGroup) (relativePath : String) : RouterGroup :=
  { basePath := joinPaths g.basePath relativePath }

/-- gin `RouterGroup.Handle(method, relativePath, h)`: the route it adds to the engine. -/
def RouterGroup.handle (g : RouterGroup) (method relativePath : String) (h : Handler) :
    RouteInfo :=
  { method := method, path := joinPaths g.basePath relativePath, handler := h }

/-- Go: the registrations of `main`, in order: the engine `r` of `gin.Default()` is the
group at `/`. -/
def routes : List RouteInfo :=
  let r : RouterGroup := { basePath := "/" }
  let v1 := r.Group "/api/v1"
  let hr := v1.Group "/health"
  let rr := v1.Group "/ready"
  [ hr.handle "GET" "" .HealthGet,
    hr.handle "POST" "" .HealthSet,
    rr.handle "GET" "" .ReadyGet,
    rr.handle "POST" "" .ReadySet,
    r.handle "GET" "/swagger/*any" .Swagger ]

/-- Whether a request path falls under a registered pattern made of literal text and at
most a final catch-all `*name`: the literal text has to be equal, the catch-all takes
whatever is left. -/
def matchPath : List Char → List Char → Bool
  | [], [] => true
  | [], _ :: _ => false
  | a :: pat, p =>
    if a = '*' then true
    else
      match p with
      | [] => false
      | b :: q => decide (a = b) && matchPath pat q

/-- Whether a request path falls under a registered pattern, on strings. -/
def matchPattern (pattern path : String) : Bool :=
  matchPath pattern.data path.data

/-- The handler gin runs for a method and a request path: that of the route of this
method whose pattern the path falls under; none stands for the replies gin gives
itself (not found, or the redirect on a trailing slash), which run no handler. -/
def dispatch (method path : String) : Option Handler :=
  (routes.find? (fun r => decide (r.method = method) && matchPattern r.path path)).map
    (fun r => r.handler)

/-! ## The definitions on concrete inputs -/

/-- Go `path.Clean` on rooted and relative paths, and the empty path. -/
theorem pathClean_samples :
    pathClean "/a/../../b/./c//d/" = "/b/c/d" ∧ pathClean "../a/../../b" = "../../b" ∧
    pathClean "" = "." ∧ joinPaths "/api/v1" "/health" = "/api/v1/health" ∧
    joinPaths "/api/v1" "/health/" = "/api/v1/health/" := by
  decide

/-- The router on paths around the registered ones: the catch-all takes what lies
under /swagger/, a trailing slash or a missing one reaches no handler. -/
theorem dispatch_samples :
    dispatch "GET" "/swagger/index.html" = some .Swagger ∧
    dispatch "GET" "/swagger/" = some .Swagger ∧
    dispatch "GET" "/swagger" = none ∧
    dispatch "GET" "/api/v1/health/" = none ∧
    dispatch "HEAD" "/api/v1/health" = none ∧
    dispatch "POST" "/api/v1/ready" = some .ReadySet := by
  decide

/-- The decoder on keys in another case, on a repeated key and on a null member. -/
theorem bindHealth_samples :
    bindHealth (.value (.obj [("Health", .str "x")])) = .ok { Health := "x" } ∧
    bindHealth (.value (.obj [("health", .str "x"), ("health", .str "y")]))
      = .ok { Health := "y" } ∧
    bindHealth (.value (.obj [("health", .str "x"), ("health", .null)]))
      = .ok { Health := "x" } ∧
    bindHealth (.value (.obj [("health", .null)])) = .error .required ∧
    bindHealth (.value (.obj [("other", .str "x")])) = .error .required ∧
    bindHealth (.value .null) = .error .required ∧
    bindHealth (.value (.arr [])) = .error .typeMismatch :=
  ⟨rfl, rfl, rfl, rfl, rfl, rfl, rfl⟩

/-! ## The GET handlers -/

/-- C1: for every request and every earlier history of the process (its log),
`HealthController.Get` leaves exactly one document in the response, the object with
the one member health = foo, under status 200; nothing is logged, the request is not
aborted and no error is attached. -/
theorem HealthController_Get_fixed (req : Request) (log : List String) :
    HealthController.Get (State.start req log) =
      { c := { request := req, status := 200, written := true,
               contentType := some "application/json; charset=utf-8",
               body := [.obj [("health", .str "foo")]],
               aborted := false, errors := [] },
        log := log } := by
  rfl

/-- C6: for every request, `ReadyController.Get` leaves exactly one document in the
response, the object with the one member ready = bar, under status 200. -/
theorem ReadyController_Get_fixed (req : Request) (log : List String) :
    ReadyController.Get (State.start req log) =
      { c := { request := req, status := 200, written := true,
               contentType := some "application/json; charset=utf-8",
               body := [.obj [("ready", .str "bar")]],
               aborted := false, errors := [] },
        log := log } := by
  rfl

/-! ## The POST handlers -/

/-- The context after a successful binding and the acknowledgment. -/
theorem Context_JSON_fresh (req : Request) (doc : JSON) :
    (Context.fresh req).JSON StatusOK doc =
      { request := req, status := 200, written := true,
        contentType := some "application/json; charset=utf-8",
        body := [doc], aborted := false, errors := [] } := by
  rfl

/-- The context after a failed binding. -/
theorem Context_abort_fresh (req : Request) (e : BindError) :
    (Context.fresh req).AbortWithError StatusBadRequest e =
      { request := req, status := 400, written := true, contentType := none,
        body := [], aborted := true, errors := [e] } := by
  rfl

/-- `HealthController.Set` after a binding that succeeds. -/
theorem HealthController_Set_of_ok (req : Request) (log : List String) (d : Health)
    (h : bindHealth req.body = .ok d) :
    HealthController.Set (State.start req log) =
      { c := { request := req, status := 200, written := true,
               contentType := some "application/json; charset=utf-8",
               body := [statusOk], aborted := false, errors := [] },
        log := log ++ [gotLine d.Health] } := by
  simp only [HealthController.Set, State.start, Context.BindJSON, Context.fresh, h]
  rfl

/-- `HealthController.Set` after a binding that fails. -/
theorem HealthController_Set_of_error (req : Request) (log : List String) (e : BindError)
    (h : bindHealth req.body = .error e) :
    HealthController.Set (State.start req log) =
      { c := { request := req, status := 400, written := true, contentType := none,
               body := [], aborted := true, errors := [e] },
        log := log } := by
  simp only [HealthController.Set, State.start, Context.BindJSON, Context.fresh, h]
  rfl

/-- `ReadyController.Set` after a binding that succeeds. -/
theorem ReadyController_Set_of_ok (req : Request) (log : List String) (d : Ready)
    (h : bindReady req.body = .ok d) :
    ReadyController.Set (State.start req log) =
      { c := { request := req, status := 200, written := true,
               contentType := some "application/json; charset=utf-8",
               body := [statusOk], aborted := false, errors := [] },
        log := log ++ [gotLine d.Ready] } := by
  simp only [ReadyController.Set, State.start, Context.BindJSON, Context.fresh, h]
  rfl

/-- `ReadyController.Set` after a binding that fails. -/
theorem ReadyController_Set_of_error (req : Request) (log : List String) (e : BindError)
    (h : bindReady req.body = .error e) :
    ReadyController.Set (State.start req log) =
      { c := { request := req, status := 400, written := true, contentType := none,
               body := [], aborted := true, errors := [e] },
        log := log } := by
  simp only [ReadyController.Set, State.start, Context.BindJSON, Context.fresh, h]
  rfl

/-- The logged line determines the value received. -/
theorem gotLine_eq_iff (a b : String) :
    gotLine a = "Got: \x7b" ++ b ++ "\x7d" ↔ a = b := by
  constructor
  · intro h
    have h2 := congrArg String.data h
    simp only [gotLine, String.data_append, List.append_assoc] at h2
    have h3 := List.append_cancel_left h2
    have h4 := List.append_cancel_right h3
    exact String.ext h4
  · intro h
    rw [h]
    rfl

/-- C2: for every request whose body binds to a `Health`, `HealthController.Set` logs
the line made of Got:, a blank and the value received between braces, and answers
status 200 with the one document status = ok; the response does not mention the value
bound. -/
theorem HealthController_Set_acknowledges (req : Request) (log : List String) (d : Health)
    (h : bindHealth req.body = .ok d) :
    (HealthController.Set (State.start req log)).log
      = log ++ ["Got: \x7b" ++ d.Health ++ "\x7d"] ∧
    (HealthController.Set (State.start req log)).c =
      { request := req, status := 200, written := true,
        contentType := some "application/json; charset=utf-8",
        body := [.obj [("status", .str "ok")]], aborted := false, errors := [] } := by
  rw [HealthController_Set_of_ok req log d h]
  exact ⟨rfl, rfl⟩

/-- C2 at the body with the one member health = x: it binds, the line logged is the
value between braces, the answer is the acknowledgment. -/
theorem HealthController_Set_acknowledges_witness :
    bindHealth (.value (.obj [("health", .str "x")])) = .ok { Health := "x" } ∧
    (HealthController.Set (State.start
        ⟨"POST", "/api/v1/health", [], .value (.obj [("health", .str "x")])⟩ [])).log
      = ["Got: \x7bx\x7d"] ∧
    (HealthController.Set (State.start
        ⟨"POST", "/api/v1/health", [], .value (.obj [("health", .str "x")])⟩ [])).c =
      { request := ⟨"POST", "/api/v1/health", [], .value (.obj [("health", .str "x")])⟩,
        status := 200, written := true,
        contentType := some "application/json; charset=utf-8",
        body := [.obj [("status", .str "ok")]], aborted := false, errors := [] } :=
  ⟨rfl,
   (HealthController_Set_acknowledges
     ⟨"POST", "/api/v1/health", [], .value (.obj [("health", .str "x")])⟩ []
     { Health := "x" } rfl).1.trans (by decide),
   (HealthController_Set_acknowledges
     ⟨"POST", "/api/v1/health", [], .value (.obj [("health", .str "x")])⟩ []
     { Health := "x" } rfl).2⟩

/-- C3: `HealthController.Set` answers status 200 with the document status = ok exactly
when the body binds to a `Health`; it logs a line made of Got:, a blank and a value
between braces exactly then, and the value in the line is the value bound; on the empty
object it writes no document and logs nothing. -/
theorem HealthController_Set_ok_iff_bound (req : Request) (log : List String) :
    (((HealthController.Set (State.start req log)).c.status = 200 ∧
      (HealthController.Set (State.start req log)).c.body = [.obj [("status", .str "ok")]])
        ↔ ∃ d, bindHealth req.body = .ok d) ∧
    ((∃ s, (HealthController.Set (State.start req log)).log
          = log ++ ["Got: \x7b" ++ s ++ "\x7d"])
        ↔ ∃ d, bindHealth req.body = .ok d) ∧
    (∀ d, bindHealth req.body = .ok d ↔
      (HealthController.Set (State.start req log)).log
        = log ++ ["Got: \x7b" ++ d.Health ++ "\x7d"]) ∧
    (∀ m p hd,
      (HealthController.Set (State.start ⟨m, p, hd, .value (.obj [])⟩ log)).c.body = [] ∧
      (HealthController.Set (State.start ⟨m, p, hd, .value (.obj [])⟩ log)).log = log) := by
  refine ⟨?_, ?_, ?_, ?_⟩
  · cases h : bindHealth req.body with
    | error e => rw [HealthController_Set_of_error req log e h]; simp
    | ok d => rw [HealthController_Set_of_ok req log d h]; simp [statusOk]
  · cases h : bindHealth req.body with
    | error e => rw [HealthController_Set_of_error req log e h]; simp
    | ok d =>
      rw [HealthController_Set_of_ok req log d h]
      exact ⟨fun _ => ⟨d, rfl⟩, fun _ => ⟨d.Health, rfl⟩⟩
  · intro d
    cases h : bindHealth req.body with
    | error e => rw [HealthController_Set_of_error req log e h]; simp
    | ok d2 =>
      rw [HealthController_Set_of_ok req log d2 h]
      constructor
      · intro e
        cases e
        rfl
      · intro e
        have e2 : gotLine d2.Health = "Got: \x7b" ++ d.Health ++ "\x7d" := by
          simpa using e
        have e3 := (gotLine_eq_iff d2.Health d.Health).1 e2
        cases d2
        cases d
        simp only at e3
        rw [e3]
  · intro m p hd
    rw [HealthController_Set_of_error ⟨m, p, hd, .value (.obj [])⟩ log .required rfl]
    exact ⟨rfl, rfl⟩

/-- C4, as stated, fails: on the empty object (the required field is missing) the
binding fails and the response header has gone out with the explicit status 400. -/
theorem Set_bind_failure_sends_status_400 :
    bindHealth (.value (.obj [])) = .error .required ∧
    (HealthController.Set (State.start
        ⟨"POST", "/api/v1/health", [], .value (.obj [])⟩ [])).c.written = true ∧
    (HealthController.Set (State.start
        ⟨"POST", "/api/v1/health", [], .value (.obj [])⟩ [])).c.status = 400 ∧
    bindReady .invalid = .error .malformed ∧
    (ReadyController.Set (State.start ⟨"POST", "/api/v1/ready", [], .invalid⟩ [])).c.written
      = true ∧
    (ReadyController.Set (State.start ⟨"POST", "/api/v1/ready", [], .invalid⟩ [])).c.status
      = 400 :=
  ⟨rfl, rfl, rfl, rfl, rfl, rfl⟩

/-- C4, amended: for every body that fails to bind in `HealthController.Set` or in
`ReadyController.Set`, whatever the failure, the request is aborted with the status 400
sent and an empty response body, and nothing is logged; the outcome is the same for a
body that is not JSON and for a body without the required field. -/
theorem Set_bind_failure_aborts_400 (req : Request) (log : List String) (e : BindError) :
    (bindHealth req.body = .error e →
      (HealthController.Set (State.start req log)).outcome =
        { status := 400, written := true, contentType := none, body := [], log := log,
          aborted := true }) ∧
    (bindReady req.body = .error e →
      (ReadyController.Set (State.start req log)).outcome =
        { status := 400, written := true, contentType := none, body := [], log := log,
          aborted := true }) := by
  constructor
  · intro h
    rw [HealthController_Set_of_error req log e h]
    rfl
  · intro h
    rw [ReadyController_Set_of_error req log e h]
    rfl

/-- C4, amended, at a body that is not JSON (for health) and at the empty object (for
ready). -/
theorem Set_bind_failure_aborts_400_witness :
    bindHealth .invalid = .error .malformed ∧
    (HealthController.Set (State.start ⟨"POST", "/api/v1/health", [], .invalid⟩ [])).outcome =
      { status := 400, written := true, contentType := none, body := [], log := [],
        aborted := true } ∧
    bindReady (.value (.obj [])) = .error .required ∧
    (ReadyController.Set (State.start
        ⟨"POST", "/api/v1/ready", [], .value (.obj [])⟩ [])).outcome =
      { status := 400, written := true, contentType := none, body := [], log := [],
        aborted := true } :=
  ⟨rfl,
   (Set_bind_failure_aborts_400 ⟨"POST", "/api/v1/health", [], .invalid⟩ [] .malformed).1 rfl,
   rfl,
   (Set_bind_failure_aborts_400 ⟨"POST", "/api/v1/ready", [], .value (.obj [])⟩ []
     .required).2 rfl⟩

/-! ## What binds -/

/-- Equality up to case, position by position, is equality of the lowered lists. -/
theorem equalFoldChars_iff (as bs : List Char) :
    equalFoldChars as bs = true ↔ as.map Char.toLower = bs.map Char.toLower := by
  induction as generalizing bs with
  | nil => cases bs <;> simp [equalFoldChars]
  | cons a as ih =>
    cases bs with
    | nil => simp [equalFoldChars]
    | cons b bs => simp [equalFoldChars, ih]

/-- For a field name in lower case, the key comparison of the decoder is equality up
to case. -/
theorem foldKey_eq_iff (name k : String) (hn : foldKey name = name) :
    foldKey k = name ↔ equalFold k name = true := by
  have hd : name.data.map Char.toLower = name.data := by
    have h := congrArg String.data hn
    simpa [foldKey] using h
  rw [equalFold, equalFoldChars_iff, hd]
  constructor
  · intro h
    have h2 := congrArg String.data h
    simpa [foldKey] using h2
  · intro h
    unfold foldKey
    rw [h]

/-- A member with the key of the field contributes its value. -/
theorem fieldValues_cons_of_match (name : String) (m : String × JSON)
    (rest : List (String × JSON)) (hk : equalFold m.1 name = true) :
    fieldValues name (m :: rest) = m.2 :: fieldValues name rest := by
  simp [fieldValues, hk]

/-- A member with another key contributes nothing. -/
theorem fieldValues_cons_of_skip (name : String) (m : String × JSON)
    (rest : List (String × JSON)) (hk : ¬ equalFold m.1 name = true) :
    fieldValues name (m :: rest) = fieldValues name rest := by
  simp [fieldValues, hk]

/-- The walk of the decoder over the members of an object, read declaratively: the
field ends as the last string among the members with its key, and an error is recorded
as soon as one of them is neither a string nor null. -/
theorem foldl_decodeMember (name : String) (hn : foldKey name = name)
    (ms : List (String × JSON)) (st : DecodeState) :
    ms.foldl (decodeMember name) st =
      { field := lastString st.field (fieldValues name ms),
        err := if (fieldValues name ms).all isStringOrNull then st.err
               else some (st.err.getD .typeMismatch) } := by
  induction ms generalizing st with
  | nil => simp [fieldValues, lastString]
  | cons m rest ih =>
    rw [List.foldl_cons, ih]
    by_cases hk : equalFold m.1 name = true
    · have hf : foldKey m.1 = name := (foldKey_eq_iff name m.1 hn).2 hk
      rw [fieldValues_cons_of_match name m rest hk]
      cases hv : m.2 <;>
        simp [decodeMember, hf, hv, lastString, isStringOrNull]
    · have hf : ¬ foldKey m.1 = name := fun e => hk ((foldKey_eq_iff name m.1 hn).1 e)
      rw [fieldValues_cons_of_skip name m rest hk]
      simp [decodeMember, hf]

/-- The binding of a one-string struct, read declaratively. -/
theorem bindString_ok_iff (name : String) (hn : foldKey name = name) (b : Body) (s : String) :
    bindString name b = .ok s ↔
      ∃ ms, b = .value (.obj ms) ∧ (fieldValues name ms).all isStringOrNull = true ∧
        lastString "" (fieldValues name ms) = s ∧ s ≠ "" := by
  cases b with
  | invalid => simp [bindString, decodeStruct]
  | value v =>
    cases v with
    | obj ms =>
      simp only [bindString, decodeStruct, foldl_decodeMember name hn]
      by_cases hall : (fieldValues name ms).all isStringOrNull = true
      · simp only [hall, if_true]
        by_cases he : lastString "" (fieldValues name ms) = ""
        · simp only [validateRequired, he, if_true]
          constructor
          · intro h; cases h
          · rintro ⟨ms2, hb, -, hl, hs⟩
            cases hb
            exact absurd (hl.symm.trans he) hs
        · simp only [validateRequired, he, if_false]
          constructor
          · intro h
            cases h
            exact ⟨ms, rfl, hall, rfl, he⟩
          · rintro ⟨ms2, hb, -, hl, -⟩
            cases hb
            rw [hl]
      · simp only [hall, if_false]
        constructor
        · intro h; cases h
        · rintro ⟨ms2, hb, hall2, -, -⟩
          cases hb
          exact absurd hall2 hall
    | null => simp [bindString, decodeStruct, validateRequired]
    | bool x => simp [bindString, decodeStruct]
    | num x => simp [bindString, decodeStruct]
    | str x => simp [bindString, decodeStruct]
    | arr x => simp [bindString, decodeStruct]

/-- Binding to `Health` is binding its one string under the name `health`. -/
theorem bindHealth_ok_iff (b : Body) (d : Health) :
    bindHealth b = .ok d ↔ bindString "health" b = .ok d.Health := by
  unfold bindHealth
  cases h : bindString "health" b with
  | error e => simp
  | ok s =>
    cases d with
    | mk t => simp

/-- Binding to `Ready` is binding its one string under the name `ready`. -/
theorem bindReady_ok_iff (b : Body) (d : Ready) :
    bindReady b = .ok d ↔ bindString "ready" b = .ok d.Ready := by
  unfold bindReady
  cases h : bindString "ready" b with
  | error e => simp
  | ok s =>
    cases d with
    | mk t => simp

/-- The binding of an object with one member: the key has to be that of the field up
to case, the value a string that is not empty. -/
theorem bindString_single (name : String) (hn : foldKey name = name) (k : String) (v : JSON)
    (s : String) :
    bindString name (.value (.obj [(k, v)])) = .ok s ↔
      equalFold k name = true ∧ v = .str s ∧ s ≠ "" := by
  rw [bindString_ok_iff name hn]
  by_cases hk : equalFold k name = true
  · constructor
    · rintro ⟨ms, hb, hall, hl, hs⟩
      cases hb
      rw [fieldValues_cons_of_match name (k, v) [] hk] at hall hl
      refine ⟨hk, ?_, hs⟩
      cases v <;> simp_all [fieldValues, lastString, isStringOrNull]
    · rintro ⟨-, rfl, hs⟩
      refine ⟨_, rfl, ?_, ?_, hs⟩
      · rw [fieldValues_cons_of_match name (k, .str s) [] hk]
        simp [fieldValues, isStringOrNull]
      · rw [fieldValues_cons_of_match name (k, .str s) [] hk]
        simp [fieldValues, lastString]
  · constructor
    · rintro ⟨ms, hb, -, hl, hs⟩
      cases hb
      rw [fieldValues_cons_of_skip name (k, v) [] hk] at hl
      exact absurd hl.symm hs
    · rintro ⟨h, -, -⟩
      exact absurd h hk

/-- C5, as stated, fails: the object whose field is the empty string has the field
present and not null, and does not bind (for `Health` and for `Ready`); an object whose
field is a number is well-formed with the field present and not null, and does not bind
either. -/
theorem bind_refuses_empty_string :
    bindHealth (.value (.obj [("health", .str "")])) = .error .required ∧
    bindReady (.value (.obj [("ready", .str "")])) = .error .required ∧
    bindHealth (.value (.obj [("health", .num "5")])) = .error .typeMismatch :=
  ⟨rfl, rfl, rfl⟩

/-- C5, amended: a request body binds as `Health` (as `Ready`) exactly when the first
JSON value the decoder reads from it is an object in which every member whose key is
equal to `health` (`ready`) up to the case of the ASCII letters is a string or null,
and the last string among these members is not empty; that string is the value bound.
An object with one member binds exactly when the key of the member is equal to the
name of the field up to case and its value is a string that is not empty: the key
`HEALTH` with the value x binds to x, the key `health` with the empty string does not
bind. -/
theorem bind_iff_nonempty_string (b : Body) :
    (∀ d : Health, bindHealth b = .ok d ↔
      ∃ ms, b = .value (.obj ms) ∧ (fieldValues "health" ms).all isStringOrNull = true ∧
        lastString "" (fieldValues "health" ms) = d.Health ∧ d.Health ≠ "") ∧
    (∀ d : Ready, bindReady b = .ok d ↔
      ∃ ms, b = .value (.obj ms) ∧ (fieldValues "ready" ms).all isStringOrNull = true ∧
        lastString "" (fieldValues "ready" ms) = d.Ready ∧ d.Ready ≠ "") ∧
    (∀ (k : String) (v : JSON) (d : Health), bindHealth (.value (.obj [(k, v)])) = .ok d ↔
      equalFold k "health" = true ∧ v = .str d.Health ∧ d.Health ≠ "") ∧
    (∀ (k : String) (v : JSON) (d : Ready), bindReady (.value (.obj [(k, v)])) = .ok d ↔
      equalFold k "ready" = true ∧ v = .str d.Ready ∧ d.Ready ≠ "") ∧
    bindHealth (.value (.obj [("HEALTH", .str "x")])) = .ok { Health := "x" } ∧
    bindReady (.value (.obj [("Ready", .str "x")])) = .ok { Ready := "x" } ∧
    bindHealth (.value (.obj [("health", .str "x"), ("Health", .str "")]))
      = .error .required ∧
    bindHealth (.value (.obj [("health", .str "")])) = .error .required ∧
    bindHealth (.value (.obj [("healthy", .str "x")])) = .error .required ∧
    equalFold "HeAlTh" "health" = true ∧ equalFold "healthy" "health" = false ∧
    equalFold "ready" "health" = false := by
  refine ⟨?_, ?_, ?_, ?_, rfl, rfl, rfl, rfl, rfl, by decide, by decide, by decide⟩
  · intro d
    rw [bindHealth_ok_iff, bindString_ok_iff "health" (by decide)]
  · intro d
    rw [bindReady_ok_iff, bindString_ok_iff "ready" (by decide)]
  · intro k v d
    rw [bindHealth_ok_iff, bindString_single "health" (by decide)]
  · intro k v d
    rw [bindReady_ok_iff, bindString_single "ready" (by decide)]

/-! ## Ready against health -/

/-- Among members with unambiguous keys, the renaming turns the members with the key
of `health` into the members with the key of `ready`. -/
theorem fieldValues_rename (ms : List (String × JSON))
    (h : ms.all (fun m =>
      (!equalFold m.1 "health" || decide (m.1 = "health")) && !equalFold m.1 "ready") = true) :
    fieldValues "ready" (ms.map (fun m => (renameKey m.1, m.2))) = fieldValues "health" ms := by
  induction ms with
  | nil => rfl
  | cons m rest ih =>
    rw [List.all_cons, Bool.and_eq_true] at h
    obtain ⟨hm, hrest⟩ := h
    rw [Bool.and_eq_true] at hm
    obtain ⟨hm1, hm2⟩ := hm
    have hnr : ¬ equalFold m.1 "ready" = true := by simpa using hm2
    rw [List.map_cons]
    by_cases hk : equalFold m.1 "health" = true
    · have hexact : m.1 = "health" := by simpa [hk] using hm1
      have hr : equalFold (renameKey m.1, m.2).1 "ready" = true := by
        simp only [renameKey, hexact, if_true]
        decide
      rw [fieldValues_cons_of_match "ready" _ _ hr, fieldValues_cons_of_match "health" m rest hk,
        ih hrest]
    · have hne : ¬ m.1 = "health" := by
        intro e
        apply hk
        rw [e]
        decide
      have hr : ¬ equalFold (renameKey m.1, m.2).1 "ready" = true := by
        simp only [renameKey, hne, if_false]
        exact hnr
      rw [fieldValues_cons_of_skip "ready" _ _ hr, fieldValues_cons_of_skip "health" m rest hk,
        ih hrest]

/-- On a body with unambiguous keys, binding the renamed body under `ready` is binding
the body under `health`. -/
theorem bindString_rename (b : Body) (h : plainKeys b = true) :
    bindString "ready" (renameBody b) = bindString "health" b := by
  cases b with
  | invalid => rfl
  | value v =>
    cases v with
    | obj ms =>
      simp only [plainKeys] at h
      simp only [bindString, renameBody, renameDoc, decodeStruct,
        foldl_decodeMember "ready" (by decide), foldl_decodeMember "health" (by decide),
        fieldValues_rename ms h]
    | null => rfl
    | bool x => rfl
    | num x => rfl
    | str x => rfl
    | arr x => rfl

/-- The annotation of `ReadyController.Set` declares the request body a string; the
code binds a `Ready` object: on the JSON string x both `Set` handlers abort with 400. -/
theorem Set_string_body_aborts :
    (ReadyController.Set (State.start
        ⟨"POST", "/api/v1/ready", [], .value (.str "x")⟩ [])).outcome =
      { status := 400, written := true, contentType := none, body := [], log := [],
        aborted := true } ∧
    (HealthController.Set (State.start
        ⟨"POST", "/api/v1/health", [], .value (.str "x")⟩ [])).outcome =
      { status := 400, written := true, contentType := none, body := [], log := [],
        aborted := true } :=
  ⟨rfl, rfl⟩

/-- C7, as stated, fails. The response of `HealthController.Get` under the renaming
carries the value foo, that of `ReadyController.Get` the value bar. On the object
with health = x next to an empty ready, `HealthController.Set` answers 200 while
`ReadyController.Set` on the renamed body aborts with 400; and so on the object with
the one member Health = x, whose key the renaming of `health` leaves as it is. -/
theorem Ready_is_not_Health_renamed :
    (renameOutcome (HealthController.Get (State.start
        ⟨"GET", "/api/v1/health", [], .invalid⟩ [])).outcome).body
      = [.obj [("ready", .str "foo")]] ∧
    (ReadyController.Get (State.start
        (renameRequest ⟨"GET", "/api/v1/health", [], .invalid⟩) [])).outcome.body
      = [.obj [("ready", .str "bar")]] ∧
    renameOutcome (HealthController.Get (State.start
        ⟨"GET", "/api/v1/health", [], .invalid⟩ [])).outcome
      ≠ (ReadyController.Get (State.start
        (renameRequest ⟨"GET", "/api/v1/health", [], .invalid⟩) [])).outcome ∧
    (HealthController.Set (State.start
        ⟨"POST", "/api/v1/health", [],
          .value (.obj [("health", .str "x"), ("ready", .str "")])⟩ [])).outcome.status
      = 200 ∧
    (renameRequest ⟨"POST", "/api/v1/health", [],
        .value (.obj [("health", .str "x"), ("ready", .str "")])⟩).body
      = .value (.obj [("ready", .str "x"), ("ready", .str "")]) ∧
    (ReadyController.Set (State.start
        (renameRequest ⟨"POST", "/api/v1/health", [],
          .value (.obj [("health", .str "x"), ("ready", .str "")])⟩) [])).outcome.status
      = 400 ∧
    (HealthController.Set (State.start
        ⟨"POST", "/api/v1/health", [], .value (.obj [("Health", .str "x")])⟩ [])).outcome.status
      = 200 ∧
    (renameRequest ⟨"POST", "/api/v1/health", [], .value (.obj [("Health", .str "x")])⟩).body
      = .value (.obj [("Health", .str "x")]) ∧
    (ReadyController.Set (State.start
        (renameRequest ⟨"POST", "/api/v1/health", [],
          .value (.obj [("Health", .str "x")])⟩) [])).outcome.status
      = 400 := by
  refine ⟨rfl, rfl, ?_, rfl, rfl, rfl, rfl, rfl, rfl⟩
  intro h
  have hb := congrArg Outcome.body h
  have h1 : (renameOutcome (HealthController.Get (State.start
        ⟨"GET", "/api/v1/health", [], .invalid⟩ [])).outcome).body
      = [.obj [("ready", .str "foo")]] := rfl
  have h2 : (ReadyController.Get (State.start
        (renameRequest ⟨"GET", "/api/v1/health", [], .invalid⟩) [])).outcome.body
      = [.obj [("ready", .str "bar")]] := rfl
  rw [h1, h2] at hb
  simp at hb

/-- C7, amended: for every request whose body has unambiguous keys (every key equal to
`health` up to the case of the ASCII letters is `health` itself, and no key is equal to
`ready` up to case), `ReadyController.Set` on the request with the key `health` renamed
to `ready` has the outcome of `HealthController.Set` on the request (status, header,
body, log, abort); and for every request the outcome of `ReadyController.Get` is that
of `HealthController.Get` under the renaming, but for the value of the one member,
which is bar where the renamed one is foo. The condition on the keys is there because
the handlers take a key in any case: `HealthController.Set` answers 200 on the one
member Health = x, `ReadyController.Set` on the one member READY = x, and neither body
has unambiguous keys. -/
theorem Ready_is_Health_renamed (req : Request) (log : List String) :
    (plainKeys req.body = true →
      (ReadyController.Set (State.start (renameRequest req) log)).outcome =
        (HealthController.Set (State.start req log)).outcome) ∧
    (renameOutcome (HealthController.Get (State.start req log)).outcome).body
      = [.obj [("ready", .str "foo")]] ∧
    (ReadyController.Get (State.start (renameRequest req) log)).outcome =
      { renameOutcome (HealthController.Get (State.start req log)).outcome with
        body := [.obj [("ready", .str "bar")]] } ∧
    (HealthController.Set (State.start
        ⟨"POST", "/api/v1/health", [], .value (.obj [("Health", .str "x")])⟩ log)).c.status
      = 200 ∧
    (ReadyController.Set (State.start
        ⟨"POST", "/api/v1/ready", [], .value (.obj [("READY", .str "x")])⟩ log)).c.status
      = 200 ∧
    plainKeys (.value (.obj [("Health", .str "x")])) = false ∧
    plainKeys (.value (.obj [("READY", .str "x")])) = false ∧
    plainKeys (.value (.obj [("health", .str "x"), ("ready", .str "")])) = false := by
  refine ⟨?_, rfl, rfl, rfl, rfl, by decide, by decide, by decide⟩
  intro hno
  have hbind := bindString_rename req.body hno
  cases hh : bindString "health" req.body with
  | error e =>
    have h1 : bindHealth req.body = .error e := by simp [bindHealth, hh]
    have h2 : bindReady (renameRequest req).body = .error e := by
      simp [bindReady, renameRequest, hbind, hh]
    rw [HealthController_Set_of_error req log e h1,
      ReadyController_Set_of_error (renameRequest req) log e h2]
    rfl
  | ok s =>
    have h1 : bindHealth req.body = .ok { Health := s } := by simp [bindHealth, hh]
    have h2 : bindReady (renameRequest req).body = .ok { Ready := s } := by
      simp [bindReady, renameRequest, hbind, hh]
    rw [HealthController_Set_of_ok req log _ h1,
      ReadyController_Set_of_ok (renameRequest req) log _ h2]
    rfl

/-- C7, amended, at the body with the one member health = x (both handlers answer 200
and log the value) and at the body with the one member other = x (both abort). -/
theorem Ready_is_Health_renamed_witness :
    plainKeys (Body.value (.obj [("health", .str "x")])) = true ∧
    (ReadyController.Set (State.start
        (renameRequest ⟨"POST", "/api/v1/health", [], .value (.obj [("health", .str "x")])⟩)
        [])).outcome =
      (HealthController.Set (State.start
        ⟨"POST", "/api/v1/health", [], .value (.obj [("health", .str "x")])⟩ [])).outcome ∧
    (HealthController.Set (State.start
        ⟨"POST", "/api/v1/health", [], .value (.obj [("health", .str "x")])⟩ [])).outcome =
      { status := 200, written := true,
        contentType := some "application/json; charset=utf-8",
        body := [.obj [("status", .str "ok")]], log := ["Got: \x7bx\x7d"],
        aborted := false } ∧
    plainKeys (Body.value (.obj [("other", .str "x")])) = true ∧
    (ReadyController.Set (State.start
        (renameRequest ⟨"POST", "/api/v1/health", [], .value (.obj [("other", .str "x")])⟩)
        [])).outcome =
      (HealthController.Set (State.start
        ⟨"POST", "/api/v1/health", [], .value (.obj [("other", .str "x")])⟩ [])).outcome :=
  ⟨by decide,
   (Ready_is_Health_renamed
     ⟨"POST", "/api/v1/health", [], .value (.obj [("health", .str "x")])⟩ []).1 (by decide),
   rfl,
   by decide,
   (Ready_is_Health_renamed
     ⟨"POST", "/api/v1/health", [], .value (.obj [("other", .str "x")])⟩ []).1 (by decide)⟩

/-! ## The supervisor -/

/-- The line logged at startup is not the line logged on a clean exit. -/
theorem serving_line_ne_exiting (title : String) :
    "Serving Swagger UI at /swagger for API " ++ title ≠ "Exiting..." := by
  intro h
  have h1 : ("Serving Swagger UI at /swagger for API " ++ title).data.head? = some 'S' := rfl
  have h2 : ("Exiting...").data.head? = some 'E' := rfl
  rw [h] at h1
  rw [h2] at h1
  revert h1
  decide

/-- The line of the fatal error is not the line logged on a clean exit. -/
theorem forced_line_ne_exiting (msg : String) :
    "Server forced to shutdown:" ++ msg ≠ "Exiting..." := by
  intro h
  have h1 : ("Server forced to shutdown:" ++ msg).data.head? = some 'S' := rfl
  have h2 : ("Exiting...").data.head? = some 'E' := rfl
  rw [h] at h1
  rw [h2] at h1
  revert h1
  decide

/-- C8: once a signal has come in, `main` calls the shutdown with a deadline of 5
seconds and no other; when the shutdown returns an error the fatal line is logged, the
process exits with status 1 and the line Exiting... is not logged; when it returns no
error the line Exiting... is logged and the process ends with status 0. No shutdown
step comes before the signal is received: not in any prefix of a trace with a signal,
and never in the trace without one. -/
theorem main_shutdown_after_signal (title : String) (sig : Signal) :
    (∀ res, Event.shutdown 5000000000 ∈ main ⟨title, some sig, res⟩) ∧
    (∀ res d, Event.shutdown d ∈ main ⟨title, some sig, res⟩ → d = 5 * Second) ∧
    (∀ err,
      exitStatus (main ⟨title, some sig, some err⟩) = some 1 ∧
      Event.log ("Server forced to shutdown:" ++ err.Error) ∈ main ⟨title, some sig, some err⟩ ∧
      Event.log "Exiting..." ∉ main ⟨title, some sig, some err⟩) ∧
    (exitStatus (main ⟨title, some sig, none⟩) = some 0 ∧
      Event.log "Exiting..." ∈ main ⟨title, some sig, none⟩) ∧
    (∀ res n d, Event.shutdown d ∈ (main ⟨title, some sig, res⟩).take n →
      Event.recv sig ∈ (main ⟨title, some sig, res⟩).take n) ∧
    (∀ res d, Event.shutdown d ∉ main ⟨title, none, res⟩) := by
  refine ⟨?_, ?_, ?_, ?_, ?_, ?_⟩
  · intro res
    cases res <;> simp [main, Second]
  · intro res d h
    cases res <;> simp [main] at h <;> exact h
  · intro err
    refine ⟨rfl, by simp [main], ?_⟩
    have h1 := serving_line_ne_exiting title
    have h2 := forced_line_ne_exiting err.Error
    simp [main, h1.symm, h2.symm]
  · exact ⟨rfl, by simp [main]⟩
  · intro res n d h
    cases res with
    | none =>
      match n with
      | 0 | 1 | 2 | 3 => simp [main, List.take] at h
      | k + 4 => simp [main, List.take]
    | some err =>
      match n with
      | 0 | 1 | 2 | 3 => simp [main, List.take] at h
      | k + 4 => simp [main, List.take]
  · intro res d
    simp [main]

/-- C8 at a SIGTERM with titles and errors at hand: the one shutdown step of the trace
carries 5 seconds, and the prefix up to it holds the receipt of the signal. -/
theorem main_shutdown_after_signal_witness :
    Event.shutdown 5000000000 ∈ main ⟨"Config UI Example", some .SIGTERM, none⟩ ∧
    (5000000000 : Nat) = 5 * Second ∧
    Event.recv .SIGTERM ∈ (main ⟨"Config UI Example", some .SIGTERM, none⟩).take 6 ∧
    exitStatus (main ⟨"Config UI Example", some .SIGTERM, some .DeadlineExceeded⟩) = some 1 ∧
    exitStatus (main ⟨"Config UI Example", some .SIGTERM, none⟩) = some 0 :=
  ⟨by decide,
   (main_shutdown_after_signal "Config UI Example" .SIGTERM).2.1 none 5000000000 (by decide),
   (main_shutdown_after_signal "Config UI Example" .SIGTERM).2.2.2.2.1 none 6 5000000000
     (by decide),
   ((main_shutdown_after_signal "Config UI Example" .SIGTERM).2.2.1 .DeadlineExceeded).1,
   (main_shutdown_after_signal "Config UI Example" .SIGTERM).2.2.2.1.1⟩

/-! ## The listener goroutine -/

/-- C9 on the code: when `ListenAndServe` returns a bind failure the goroutine logs
nothing, and when it returns the graceful-close error the goroutine logs it as a listen
error; in general a line is logged exactly when the error is the graceful-close error,
and the goroutine never ends the process. -/
theorem listener_logs_only_graceful_close :
    listener (some (.wrap "listen tcp 127.0.0.1:8080: bind: address already in use"
        (.other "address already in use"))) = { log := [], exit := none } ∧
    listener (some .ErrServerClosed) =
      { log := ["listen error: http: Server closed"], exit := none } ∧
    (∀ res, (listener res).log ≠ [] ↔
      ∃ err, res = some err ∧ errorsIs err .ErrServerClosed = true) ∧
    (∀ res, (listener res).exit = none) := by
  refine ⟨by decide, by decide, ?_, ?_⟩
  · intro res
    cases res with
    | none => simp [listener]
    | some err =>
      by_cases h : errorsIs err .ErrServerClosed = true <;> simp [listener, h]
  · intro res
    cases res with
    | none => rfl
    | some err =>
      by_cases h : errorsIs err .ErrServerClosed = true <;> simp [listener, h]

/-! ## The route table -/

/-- A pattern without a catch-all takes exactly the path equal to it. -/
theorem matchPath_literal (pat p : List Char) (h : '*' ∉ pat) :
    matchPath pat p = true ↔ p = pat := by
  induction pat generalizing p with
  | nil => cases p <;> simp [matchPath]
  | cons a pat ih =>
    have ha : a ≠ '*' := fun e => h (by simp [e])
    have hp : '*' ∉ pat := fun e => h (List.mem_cons_of_mem _ e)
    cases p with
    | nil => simp [matchPath, ha]
    | cons b q =>
      simp only [matchPath, ha, if_false, Bool.and_eq_true, decide_eq_true_eq, ih q hp,
        List.cons.injEq]
      constructor
      · rintro ⟨h1, h2⟩; exact ⟨h1.symm, h2⟩
      · rintro ⟨h1, h2⟩; exact ⟨h1.symm, h2⟩

/-- The table `main` builds. -/
theorem routes_eq :
    routes =
      [ ⟨"GET", "/api/v1/health", .HealthGet⟩, ⟨"POST", "/api/v1/health", .HealthSet⟩,
        ⟨"GET", "/api/v1/ready", .ReadyGet⟩, ⟨"POST", "/api/v1/ready", .ReadySet⟩,
        ⟨"GET", "/swagger/*any", .Swagger⟩ ] := by
  decide

/-- The path `/api/v1/health` is taken by its own pattern only. -/
theorem matchPattern_health (p : String) :
    matchPattern "/api/v1/health" p = decide (p = "/api/v1/health") := by
  rw [Bool.eq_iff_iff, matchPattern, matchPath_literal _ _ (by decide), decide_eq_true_eq]
  constructor
  · intro h; exact String.ext h
  · intro h; rw [h]

/-- The path `/api/v1/ready` is taken by its own pattern only. -/
theorem matchPattern_ready (p : String) :
    matchPattern "/api/v1/ready" p = decide (p = "/api/v1/ready") := by
  rw [Bool.eq_iff_iff, matchPattern, matchPath_literal _ _ (by decide), decide_eq_true_eq]
  constructor
  · intro h; exact String.ext h
  · intro h; rw [h]

/-- The handler of a method and a path, route by route in the order of registration. -/
theorem dispatch_eq (m p : String) :
    dispatch m p =
      if m = "GET" ∧ p = "/api/v1/health" then some .HealthGet
      else if m = "POST" ∧ p = "/api/v1/health" then some .HealthSet
      else if m = "GET" ∧ p = "/api/v1/ready" then some .ReadyGet
      else if m = "POST" ∧ p = "/api/v1/ready" then some .ReadySet
      else if m = "GET" ∧ matchPattern "/swagger/*any" p = true then some .Swagger
      else none := by
  simp only [dispatch, routes_eq, List.find?_cons, List.find?_nil, matchPattern_health,
    matchPattern_ready]
  have e1 : ∀ x : String, decide (x = m) = decide (m = x) := fun x => by
    by_cases h : x = m
    · simp [h]
    · have h2 : ¬ m = x := fun e => h e.symm
      simp [h, h2]
  rw [e1 "GET", e1 "POST"]
  by_cases hg : m = "GET" <;> by_cases hpo : m = "POST" <;>
    by_cases hh : p = "/api/v1/health" <;> by_cases hr : p = "/api/v1/ready" <;>
    cases hs : matchPattern "/swagger/*any" p <;>
    simp [hg, hpo, hh, hr, hs]

/-- C10: `main` registers five routes: GET and POST on /api/v1/health and on
/api/v1/ready, and GET on /swagger/*any; the four routes under /api/v1 are those of
the four handlers. A method and a path reach `HealthController.Get` exactly when they
are GET and /api/v1/health, and so for the three other handlers. -/
theorem routes_reach_handlers :
    routes =
      [ ⟨"GET", "/api/v1/health", .HealthGet⟩, ⟨"POST", "/api/v1/health", .HealthSet⟩,
        ⟨"GET", "/api/v1/ready", .ReadyGet⟩, ⟨"POST", "/api/v1/ready", .ReadySet⟩,
        ⟨"GET", "/swagger/*any", .Swagger⟩ ] ∧
    (routes.filter (fun r => "/api/v1/".data.isPrefixOf r.path.data)).map (fun r => r.handler)
      = [.HealthGet, .HealthSet, .ReadyGet, .ReadySet] ∧
    (∀ m p, dispatch m p = some .HealthGet ↔ m = "GET" ∧ p = "/api/v1/health") ∧
    (∀ m p, dispatch m p = some .HealthSet ↔ m = "POST" ∧ p = "/api/v1/health") ∧
    (∀ m p, dispatch m p = some .ReadyGet ↔ m = "GET" ∧ p = "/api/v1/ready") ∧
    (∀ m p, dispatch m p = some .ReadySet ↔ m = "POST" ∧ p = "/api/v1/ready") := by
  refine ⟨routes_eq, by decide, ?_, ?_, ?_, ?_⟩ <;>
  · intro m p
    rw [dispatch_eq]
    by_cases hg : m = "GET" <;> by_cases hpo : m = "POST" <;>
      by_cases hh : p = "/api/v1/health" <;> by_cases hr : p = "/api/v1/ready" <;>
      cases hs : matchPattern "/swagger/*any" p <;>
      simp [hg, hpo, hh, hr]

end GinSwag
